import Mathlib

set_option maxRecDepth 8192

/-!
Verification of the session-orchestration core of the navifare-mcp repository.

Two layers of the source are embedded:

* `src/src/navifare.ts` — the poll orchestrator `submit_and_poll_session`.
  The upstream pricing API is abstracted as two oracles: the submission
  outcome (an `Except` value) and a fetch oracle mapping the index of each
  `get_session_results` call (1-based, counted after submission) to that
  call's outcome.  Sleeping between attempts is not modelled (time-free
  embedding); only the sequence and count of fetches and the returned value
  are.

* `src/http-server.js` — the `tools/call` dispatcher slice for the
  `search_flights` tool, together with `sanitizeSubmitArgs` and
  `generateTripSummary`.  JavaScript values are modelled by the inductive
  type `JVal`; operations that can raise a `TypeError` at runtime (property
  access on `null`/`undefined`, property assignment on a primitive in strict
  mode, `for..of` over a non-iterable) return `Except String`.  JS numbers
  are modelled as exact rationals plus `NaN`/`Infinity`; `toFixed` and the
  string-to-number conversion are modelled by exact decimal arithmetic.
-/

namespace NavifareMCP

/-- One formatted price entry, as produced by `get_session_results` in
`src/src/navifare.ts` (rank, price string, converted price, website, booking
URL, fare type, timestamp). The poll loop never inspects these fields. -/
structure PriceResult where
  rank : Nat
  price : String
  convertedPrice : Option String
  website : Option String
  bookingUrl : Option String
  fareType : String
  timestamp : Option String
deriving DecidableEq, Repr

/-- Snapshot returned by one `get_session_results` call: the `status` string
(absent when the upstream omits it) and the formatted `results` list (absent
when the raw payload had no `results` array). -/
structure SessionResults where
  status : Option String
  results : Option (List PriceResult)
deriving DecidableEq, Repr

/-- Response of `submit_session`: the upstream-issued `request_id`
(absent or empty models the falsy cases of `if (!request_id) throw`). -/
structure SubmitResponse where
  request_id : Option String
deriving DecidableEq, Repr

/-- Truthiness of the `request_id` field as tested by
`if (!request_id)` in `submit_and_poll_session`. -/
def truthyId : Option String → Bool
  | none => false
  | some s => s ≠ ""

/-- The `results.results && results.results.length > 0` test of the poll
loop: a present, non-empty results list. -/
def hasResults (s : SessionResults) : Bool :=
  match s.results with
  | some l => ¬ l.isEmpty
  | none => false

/-- The fixed poll budget of `submit_and_poll_session` (`maxAttempts = 10`). -/
def maxAttempts : Nat := 10

/-- The `for (let attempt = 1; attempt <= maxAttempts; attempt++)` loop of
`submit_and_poll_session`.  `r` is the number of loop iterations still to
run, `attempt` the 1-based attempt counter (callers maintain
`r + attempt = maxAttempts + 1`).  Returns the early-returned snapshot (if
any) and the number of fetches the loop performed.  A failed fetch is caught
and the loop continues; a `COMPLETED` status returns immediately; a
non-empty result list returns only on the final attempt. -/
def pollLoop (fetch : Nat → Except String SessionResults) :
    Nat → Nat → Option SessionResults × Nat
  | 0, _ => (none, 0)
  | r + 1, attempt =>
    match fetch attempt with
    | .error _ =>
      let p := pollLoop fetch r (attempt + 1)
      (p.1, p.2 + 1)
    | .ok results =>
      if results.status = some "COMPLETED" then
        (some results, 1)
      else if hasResults results = true ∧ attempt = maxAttempts then
        (some results, 1)
      else
        let p := pollLoop fetch r (attempt + 1)
        (p.1, p.2 + 1)

/-- The orchestrator `submit_and_poll_session` of `src/src/navifare.ts`:
fail fast on a failed submission or a falsy `request_id`; otherwise run the
poll loop; if the loop never early-returned, issue one final unconditional
fetch and return its outcome as-is.  The second component counts the
`get_session_results` calls performed after submission. -/
def submit_and_poll_session (submit : Except String SubmitResponse)
    (fetch : Nat → Except String SessionResults) :
    Except String SessionResults × Nat :=
  match submit with
  | .error e => (.error e, 0)
  | .ok resp =>
    if truthyId resp.request_id = false then
      (.error "No request_id returned from submit_session", 0)
    else
      match pollLoop fetch maxAttempts 1 with
      | (some results, n) => (.ok results, n)
      | (none, n) => (fetch (n + 1), n + 1)

/-- An attempt at which the poll loop does not early-return: the fetch fails
(swallowed by the `catch`), or it succeeds with a non-`COMPLETED` status and
the non-empty-on-final-attempt exit does not fire. -/
def nonStopping (fetch : Nat → Except String SessionResults) (i : Nat) : Prop :=
  (∃ e, fetch i = .error e) ∨
  (∃ s, fetch i = .ok s ∧ s.status ≠ some "COMPLETED" ∧
    ¬ (hasResults s = true ∧ i = maxAttempts))

/-- Mock upstream for the completed-on-attempt-3 scenario: in progress on
attempts 1 and 2, `COMPLETED` from attempt 3 on. -/
def mockCompletedAt3 : Nat → Except String SessionResults := fun i =>
  if 3 ≤ i then .ok ⟨some "COMPLETED", some []⟩
  else .ok ⟨some "IN_PROGRESS", none⟩

/-- A sample formatted price entry used by the mock upstreams. -/
def samplePrice : PriceResult :=
  ⟨1, "100 EUR", none, some "kayak", none, "Standard Fare", none⟩

/-- Mock upstream that never completes but returns one result from attempt 2
onward. -/
def mockPartialFrom2 : Nat → Except String SessionResults := fun i =>
  if 2 ≤ i then .ok ⟨some "IN_PROGRESS", some [samplePrice]⟩
  else .ok ⟨some "IN_PROGRESS", some []⟩

/-- Mock upstream that never completes and always reports zero results. -/
def mockAlwaysEmpty : Nat → Except String SessionResults := fun _ =>
  .ok ⟨some "IN_PROGRESS", some []⟩

/-- Mock upstream whose every fetch fails with a network error. -/
def mockAlwaysFailing : Nat → Except String SessionResults := fun _ =>
  .error "network unreachable"

/-- JS numbers: exact decimals plus `NaN` and the two infinities.  The
doubles handled by this server (prices, passenger counts, `plusDays`) are
decimal values; `val m e` denotes the exact value `m / 10^e` (the
representation is not normalized, all observations go through value-level
operations). -/
inductive JNum where
  | val (m : Int) (e : Nat)
  | nan
  | inf
  | ninf
deriving DecidableEq, Repr

/-- Model of a JavaScript value as handled by `src/http-server.js`. -/
inductive JVal where
  | undef
  | null
  | bool (b : Bool)
  | num (n : JNum)
  | str (s : String)
  | arr (elems : List JVal)
  | obj (fields : List (String × JVal))

/-- JS truthiness (`if (v)`). -/
def truthy : JVal → Bool
  | .undef => false
  | .null => false
  | .bool b => b
  | .num (.val m _) => m ≠ 0
  | .num .nan => false
  | .num .inf => true
  | .num .ninf => true
  | .str s => s ≠ ""
  | .arr _ => true
  | .obj _ => true

/-- The `typeof v === 'object'` test (true for objects, arrays and `null`). -/
def isTypeofObject : JVal → Bool
  | .obj _ => true
  | .arr _ => true
  | .null => true
  | _ => false

/-- First binding of a key in an object's field list (fields are kept
unique by `jset`). -/
def jlookup : List (String × JVal) → String → Option JVal
  | [], _ => none
  | (k0, v0) :: rest, k => if k0 = k then some v0 else jlookup rest k

/-- Property assignment on an object's field list: replace in place, or
append (JS insertion order). -/
def jset : List (String × JVal) → String → JVal → List (String × JVal)
  | [], k, v => [(k, v)]
  | (k0, v0) :: rest, k, v =>
    if k0 = k then (k, v) :: rest else (k0, v0) :: jset rest k v

/-- The `delete obj.k` operation. -/
def jdel : List (String × JVal) → String → List (String × JVal)
  | [], _ => []
  | (k0, v0) :: rest, k =>
    if k0 = k then jdel rest k else (k0, v0) :: jdel rest k

/-- Property read, total form: used where the receiver is known not to be
`null`/`undefined` (reads on primitives yield `undefined` in JS). -/
def getF : JVal → String → JVal
  | .obj fs, k => (jlookup fs k).getD .undef
  | _, _ => JVal.undef

/-- Property read with the JS `TypeError` on `null`/`undefined` receivers. -/
def getProp : JVal → String → Except String JVal
  | .null, k => .error ("TypeError: Cannot read properties of null (reading " ++ k ++ ")")
  | .undef, k => .error ("TypeError: Cannot read properties of undefined (reading " ++ k ++ ")")
  | .obj fs, k => .ok ((jlookup fs k).getD .undef)
  | _, _ => .ok JVal.undef

/-- Property write.  `http-server.js` is an ES module, hence strict mode:
assignment to a property of a primitive throws `TypeError`.  Named-property
assignment on arrays is not modelled (no schema of this server places an
array where a named property is then assigned). -/
def setProp : JVal → String → JVal → Except String JVal
  | .obj fs, k, v => .ok (.obj (jset fs k v))
  | _, k, _ => .error ("TypeError: Cannot create property " ++ k ++ " on non-object")

/-- Property write, total form: used where the receiver is known to be an
object. -/
def setF : JVal → String → JVal → JVal
  | .obj fs, k, v => .obj (jset fs k v)
  | v, _, _ => v

/-- The `delete obj.k` statement, total form (deleting from a non-object is
a no-op that cannot throw on these receivers). -/
def delF : JVal → String → JVal
  | .obj fs, k => .obj (jdel fs k)
  | v, _ => v

/-- The `.length` property as read by this server: array length, string
length, `undefined` otherwise. -/
def lengthOf : JVal → JVal
  | .arr xs => .num (.val xs.length 0)
  | .str s => .num (.val s.length 0)
  | _ => JVal.undef

/-- `for..of` iteration: arrays iterate their elements, strings their
characters; anything else raises `TypeError: x is not iterable`. -/
def iterOf : JVal → Except String (List JVal)
  | .arr xs => .ok xs
  | .str s => .ok (s.data.map fun c => .str (String.mk [c]))
  | _ => .error "TypeError: value is not iterable"

/-- The `x.length === 0` test (false when `.length` is `undefined`). -/
def isLen0 (v : JVal) : Bool :=
  match lengthOf v with
  | .num (.val m _) => m = 0
  | _ => false

/-- The `x.length === n` strict-equality test. -/
def isLenEq (v : JVal) (n : Nat) : Bool :=
  match lengthOf v with
  | .num (.val m e) => m = (n : Int) * 10 ^ e
  | _ => false

/-- The `x.length < 2` comparison (false when `.length` is `undefined`,
because `undefined < 2` is a NaN comparison). -/
def lenLt2 (v : JVal) : Bool :=
  match lengthOf v with
  | .num (.val m e) => m < 2 * 10 ^ e
  | _ => false

/-- ASCII uppercase conversion of one character (JS `toUpperCase` on the
ASCII range used by this server). -/
def asciiUpper (c : Char) : Char :=
  if 'a' ≤ c ∧ c ≤ 'z' then Char.ofNat (c.toNat - 32) else c

/-- ASCII lowercase conversion of one character. -/
def asciiLower (c : Char) : Char :=
  if 'A' ≤ c ∧ c ≤ 'Z' then Char.ofNat (c.toNat + 32) else c

/-- JS `String.prototype.toUpperCase` (ASCII model). -/
def jsToUpper (s : String) : String := String.mk (s.data.map asciiUpper)

/-- JS `String.prototype.toLowerCase` (ASCII model). -/
def jsToLower (s : String) : String := String.mk (s.data.map asciiLower)

/-- Whitespace for `trim` (common ASCII whitespace). -/
def isJsSpace (c : Char) : Bool :=
  c = ' ' ∨ c = '\t' ∨ c = '\n' ∨ c = '\r'

/-- JS `String.prototype.trim`. -/
def jsTrim (s : String) : String :=
  String.mk (((s.data.dropWhile isJsSpace).reverse.dropWhile isJsSpace).reverse)

/-- Split a character list at a separator character (JS `split` with a
one-character separator). -/
def splitChar (sep : Char) : List Char → List (List Char)
  | [] => [[]]
  | c :: rest =>
    let r := splitChar sep rest
    if c = sep then [] :: r
    else
      match r with
      | [] => [[c]]
      | h :: t => (c :: h) :: t

/-- JS `loc.split('-')`. -/
def jsSplitDash (s : String) : List String := (splitChar '-' s.data).map String.mk

/-- Whether `pat` occurs at the head of `l`. -/
def leadsWith : List Char → List Char → Bool
  | [], _ => true
  | _ :: _, [] => false
  | a :: as, b :: bs => a = b ∧ leadsWith as bs

/-- Whether `pat` occurs anywhere in `l` (JS `includes` for the non-empty
patterns used here). -/
def hasSub (pat : List Char) : List Char → Bool
  | [] => leadsWith pat []
  | c :: rest => leadsWith pat (c :: rest) ∨ hasSub pat rest

/-- JS `s.includes(pat)` for non-empty `pat`. -/
def containsSubstr (s pat : String) : Bool := hasSub pat.data s.data

/-- First maximal run of digits in a string (JS `s.match(/\d+/)`). -/
def firstDigitRun : List Char → Option (List Char)
  | [] => none
  | c :: rest =>
    if c.isDigit then some (c :: rest.takeWhile (fun d => d.isDigit))
    else firstDigitRun rest

/-- ASCII uppercase letter test. -/
def isUpperAZ (c : Char) : Bool := 'A' ≤ c ∧ c ≤ 'Z'

/-- ASCII letter test (either case). -/
def isAsciiLetter (c : Char) : Bool :=
  ('A' ≤ c ∧ c ≤ 'Z') ∨ ('a' ≤ c ∧ c ≤ 'z')

/-- JS regex word character (`\w`). -/
def isWordChar (c : Char) : Bool := c.isAlphanum ∨ c = '_'

/-- Scanner for `loc.match(/\b([A-Z]{2})\b/)`: the first two consecutive
uppercase ASCII letters delimited by word boundaries. `prev` is the
character before the scan position. -/
def findTwoUpperAux : Option Char → List Char → Option String
  | prev, a :: b :: rest =>
    if (isUpperAZ a && isUpperAZ b &&
        (match prev with | none => true | some p => ! isWordChar p) &&
        (match rest with | [] => true | c :: _ => ! isWordChar c)) = true then
      some (String.mk [a, b])
    else findTwoUpperAux (some a) (b :: rest)
  | _, _ => none

/-- First `\b[A-Z]{2}\b` match in a string, if any. -/
def findTwoUpperToken (s : String) : Option String := findTwoUpperAux none s.data

/-- The `loc.length === 2 && loc.match(/^[A-Z]{2}$/i)` test: exactly two
ASCII letters of either case. -/
def isTwoLetterCode (s : String) : Bool :=
  match s.data with
  | [a, b] => isAsciiLetter a ∧ isAsciiLetter b
  | _ => false

/-- The `String(price).replace(/[^0-9.]/g, '')` strip: keep only digits and
dots. -/
def stripNonNumeric (s : String) : String :=
  String.mk (s.data.filter fun c => c.isDigit ∨ c = '.')

/-- Value of a digit list (empty list yields 0, as `Number('')` does). -/
def digitsVal (l : List Char) : Nat :=
  l.foldl (fun a c => a * 10 + (c.toNat - 48)) 0

/-- JS `Number()` on a string of digits and dots (the shape produced by
`stripNonNumeric`): at most one dot parses to the exact decimal value as a
mantissa/scale pair `(m, e)` denoting `m / 10^e`; the empty string parses
to 0; a lone dot or several dots are NaN (`none`). -/
def jsParseNumber (s : String) : Option (Nat × Nat) :=
  match splitChar '.' s.data with
  | [a] => some (digitsVal a, 0)
  | [a, b] =>
    if a = [] ∧ b = [] then none
    else some (digitsVal a * 10 ^ b.length + digitsVal b, b.length)
  | _ => none

/-- Left-pad a number with zeros to `k` digits. -/
def padZeros (k n : Nat) : String :=
  let s := toString n
  String.mk (List.replicate (k - s.length) '0') ++ s

/-- JS `toFixed(2)` on the nonnegative decimals produced by price parsing
(value `m / 10^e`): round half up to cents and print with exactly two
decimals. -/
def toFixed2 (m e : Nat) : String :=
  let cents := (m * 200 + 10 ^ e) / (2 * 10 ^ e)
  toString (cents / 100) ++ "." ++ padZeros 2 (cents % 100)

/-- Drop trailing zero digits of a fraction part (JS prints the shortest
form: the double 84.00 prints as `84`). -/
def dropTrailingZeros (s : String) : String :=
  String.mk ((s.data.reverse.dropWhile (fun c => c = '0')).reverse)

/-- Decimal rendering of the value `m / 10^e`. -/
def decToString (m : Int) (e : Nat) : String :=
  let a := m.natAbs
  let ip := a / 10 ^ e
  let frac := a % 10 ^ e
  let sgn := if m < 0 then "-" else ""
  if frac = 0 then sgn ++ toString ip
  else sgn ++ toString ip ++ "." ++ dropTrailingZeros (padZeros e frac)

/-- JS number-to-string conversion. -/
def jnumToString : JNum → String
  | .nan => "NaN"
  | .inf => "Infinity"
  | .ninf => "-Infinity"
  | .val m e => decToString m e

/-- JS `Number()` on a string (ToNumber): trim, empty is 0, an optional
sign followed by digits and dots parses as a decimal, anything else is NaN
(exponent and hex forms are not used by this server and are not modelled). -/
def jsStringToNumber (s : String) : JNum :=
  let t := (jsTrim s).data
  if t = [] then .val 0 0
  else
    let signed : Int × List Char :=
      match t with
      | '-' :: r => (-1, r)
      | '+' :: r => (1, r)
      | r => (1, r)
    if signed.2 ≠ [] ∧ signed.2.all (fun c => c.isDigit ∨ c = '.') then
      match jsParseNumber (String.mk signed.2) with
      | some me => .val (signed.1 * (me.1 : Int)) me.2
      | none => .nan
    else .nan

/-- JS ToNumber coercion of a value (objects and arrays coerce through
their string form; modelled as NaN, never exercised by this server). -/
def toNumber : JVal → JNum
  | .num n => n
  | .str s => jsStringToNumber s
  | .bool true => .val 1 0
  | .bool false => .val 0 0
  | .null => .val 0 0
  | .undef => .nan
  | .arr _ => .nan
  | .obj _ => .nan

/-- `Number.isFinite(v)`: a number value that is neither NaN nor infinite. -/
def isFiniteNum : JVal → Bool
  | .num (.val _ _) => true
  | _ => false

/-- Template-literal stringification, recursion bounded by a depth fuel
(arrays join elements with commas, `null`/`undefined` elements print
empty; every value this server stringifies is a scalar or a flat array, so
the depth bound is never reached). -/
def jsTemplateAux : Nat → JVal → String
  | _, .undef => "undefined"
  | _, .null => "null"
  | _, .bool true => "true"
  | _, .bool false => "false"
  | _, .num n => jnumToString n
  | _, .str s => s
  | _, .obj _ => "[object Object]"
  | 0, .arr _ => ""
  | fuel + 1, .arr xs =>
    String.intercalate "," (xs.map fun v =>
      match v with
      | .undef => ""
      | .null => ""
      | w => jsTemplateAux fuel w)

/-- Template-literal stringification of a value. -/
def jsTemplate (v : JVal) : String := jsTemplateAux 32 v

/-- The timezone-name table of `sanitizeSubmitArgs`. -/
def timezoneToCountry : List (String × String) :=
  [("Europe/Rome", "IT"), ("Europe/Milan", "IT"), ("Europe/Paris", "FR"),
   ("Europe/London", "GB"), ("America/New_York", "US"),
   ("America/Los_Angeles", "US")]

/-- The city/country-name table of `sanitizeSubmitArgs`, in insertion
order (`Object.entries` iterates in this order). -/
def cityCountryMapping : List (String × String) :=
  [("italy", "IT"), ("italia", "IT"), ("france", "FR"), ("francia", "FR"),
   ("united kingdom", "GB"), ("uk", "GB"), ("england", "GB"),
   ("united states", "US"), ("usa", "US"), ("america", "US"),
   ("spain", "ES"), ("espana", "ES"), ("germany", "DE"),
   ("deutschland", "DE"), ("switzerland", "CH"), ("svizzera", "CH")]

/-- The location-resolution cascade of `sanitizeSubmitArgs` on a trimmed,
non-empty location string: timezone table, two-letter code, dash pattern,
country-name substring, first bare two-letter uppercase token other than
`EU`; `none` means the field is deleted. -/
def resolveLocation (loc : String) : Option String :=
  match timezoneToCountry.lookup loc with
  | some code => some code
  | none =>
    if isTwoLetterCode loc = true then some (jsToUpper loc)
    else
      let parts := jsSplitDash loc
      if (decide (parts.length = 2) && isTwoLetterCode (parts.getD 1 "")) = true then
        some (jsToUpper (parts.getD 1 ""))
      else
        match cityCountryMapping.find? (fun p => containsSubstr (jsToLower loc) p.1) with
        | some p => some p.2
        | none =>
          match findTwoUpperToken loc with
          | some t => if t = "EU" then none else some t
          | none => none

/-- The source allow-list of `sanitizeSubmitArgs`. -/
def validSources : List String := ["MANUAL", "KAYAK", "GOOGLE_FLIGHTS", "BOOKING"]

/-- The `{...rawArgs}` shallow copy: objects copy their fields, arrays
spread to index-keyed fields; the result is always an object. -/
def spreadCopy : JVal → JVal
  | .obj fs => .obj fs
  | .arr xs => .obj (xs.enum.map fun p => (toString p.1, p.2))
  | _ => .obj []

/-- Lines 178-179 of `http-server.js`: a falsy `trip` becomes `{}`, then a
falsy `trip.legs` becomes `[]` (this assignment throws in strict mode when
`trip` is a truthy primitive). -/
def sanitizeTripDefaults (args : JVal) : Except String JVal := do
  let args := if truthy (getF args "trip") = false then setF args "trip" (.obj []) else args
  let t := getF args "trip"
  if truthy (getF t "legs") = false then
    let t2 ← setProp t "legs" (.arr [])
    pure (setF args "trip" t2)
  else
    pure args

/-- Uppercase a string-typed `trip.travelClass`. -/
def sanitizeTravelClass (args : JVal) : Except String JVal := do
  let t := getF args "trip"
  match getF t "travelClass" with
  | .str s =>
    let t2 ← setProp t "travelClass" (.str (jsToUpper s))
    pure (setF args "trip" t2)
  | _ => pure args

/-- Price formatting body: strip non-numerics, parse, and reformat to two
decimals unless the parse gives NaN. -/
def priceFix (args : JVal) (s : String) : JVal :=
  match jsParseNumber (stripNonNumeric s) with
  | some me => setF args "price" (.str (toFixed2 me.1 me.2))
  | none => args

/-- The price step of `sanitizeSubmitArgs`: applies to string or number
prices only. -/
def sanitizePrice (args : JVal) : JVal :=
  match getF args "price" with
  | .str s => priceFix args s
  | .num n => priceFix args (jnumToString n)
  | _ => args

/-- The currency step: trim and uppercase a string currency. -/
def sanitizeCurrency (args : JVal) : JVal :=
  match getF args "currency" with
  | .str s => setF args "currency" (.str (jsToUpper (jsTrim s)))
  | _ => args

/-- The location step: resolve a non-empty string location through
`resolveLocation`, or delete the field. -/
def sanitizeLocation (args : JVal) : JVal :=
  match getF args "location" with
  | .str s =>
    if jsTrim s ≠ "" then
      match resolveLocation (jsTrim s) with
      | some c => setF args "location" (.str c)
      | none => delF args "location"
    else delF args "location"
  | _ => delF args "location"

/-- The source step: a truthy string source whose uppercase form is in the
allow-list is kept verbatim; everything else becomes `MANUAL`. -/
def sanitizeSource (args : JVal) : JVal :=
  match getF args "source" with
  | .str s =>
    if s ≠ "" then
      if validSources.contains (jsToUpper s) = true then args
      else setF args "source" (.str "MANUAL")
    else setF args "source" (.str "MANUAL")
  | _ => setF args "source" (.str "MANUAL")

/-- The infants step: non-finite `trip.infantsInSeat`/`trip.infantsOnLap`
become 0. -/
def sanitizeInfants (args : JVal) : Except String JVal := do
  let t := getF args "trip"
  let t ← if isFiniteNum (getF t "infantsInSeat") = false then
      setProp t "infantsInSeat" (.num (.val 0 0))
    else pure t
  let t ← if isFiniteNum (getF t "infantsOnLap") = false then
      setProp t "infantsOnLap" (.num (.val 0 0))
    else pure t
  pure (setF args "trip" t)

/-- Time normalization for one segment time field: a 5-character string
gets `:00` appended, an empty or blank string (and any falsy non-string)
becomes `00:00:00`, anything else is kept. -/
def normTime (seg : JVal) (k : String) : Except String JVal := do
  match ← getProp seg k with
  | .str s =>
    if s.length = 5 then setProp seg k (.str (s ++ ":00"))
    else if s = "" ∨ jsTrim s = "" then setProp seg k (.str "00:00:00")
    else pure seg
  | v =>
    if truthy v = false then setProp seg k (.str "00:00:00")
    else pure seg

/-- The flight-number block of the segment walk: a string flight number is
reduced to its first digit run, when one exists. -/
def segFlightNumber (seg : JVal) : Except String JVal := do
  let fnv ← getProp seg "flightNumber"
  match fnv with
  | .str s =>
    match firstDigitRun s.data with
    | some d => setProp seg "flightNumber" (.str (String.mk d))
    | none => pure seg
  | _ => pure seg

/-- The `plusDays` block of the segment walk: non-finite values become 0. -/
def segPlusDays (seg : JVal) : Except String JVal := do
  let pdv ← getProp seg "plusDays"
  if isFiniteNum pdv = false then setProp seg "plusDays" (.num (.val 0 0))
  else pure seg

/-- Per-segment normalization: digits-only flight number, defaulted
`plusDays`, padded times, in source order. -/
def updateSeg (seg0 : JVal) : Except String JVal := do
  let seg ← segFlightNumber seg0
  let seg ← segPlusDays seg
  let seg ← normTime seg "departureTime"
  normTime seg "arrivalTime"

/-- Per-leg body of the segment walk: legs without truthy `segments` are
skipped; otherwise every segment is normalized in place. -/
def updateLeg (leg : JVal) : Except String JVal := do
  let segs ← getProp leg "segments"
  if truthy segs = false then pure leg
  else do
    let xs ← iterOf segs
    let newSegs ← xs.mapM updateSeg
    match segs with
    | .arr _ => setProp leg "segments" (.arr newSegs)
    | _ => pure leg

/-- The `for (const leg of args.trip.legs)` walk of `sanitizeSubmitArgs`. -/
def sanitizeSegments (args : JVal) : Except String JVal := do
  let t := getF args "trip"
  let legs := getF t "legs"
  let legsList ← iterOf legs
  let newLegs ← legsList.mapM updateLeg
  match legs with
  | .arr _ => do
    let t2 ← setProp t "legs" (.arr newLegs)
    pure (setF args "trip" t2)
  | _ => pure args

/-- The input normalizer `sanitizeSubmitArgs` of `src/http-server.js`
(lines 173-316), as a sequence of its source-order steps.  A falsy or
non-object argument is returned unchanged; steps that can raise a strict
mode `TypeError` run in the `Except` monad. -/
def sanitizeSubmitArgs (rawArgs : JVal) : Except String JVal :=
  if truthy rawArgs = false ∨ isTypeofObject rawArgs = false then .ok rawArgs
  else do
    let args ← sanitizeTripDefaults (spreadCopy rawArgs)
    let args ← sanitizeTravelClass args
    let args := sanitizePrice args
    let args := sanitizeCurrency args
    let args := sanitizeLocation args
    let args := sanitizeSource args
    let args ← sanitizeInfants args
    sanitizeSegments args

/-- Gregorian leap-year test. -/
def isLeapYear (y : Int) : Bool :=
  ((y % 4 == 0) && !(y % 100 == 0)) || (y % 400 == 0)

/-- Days in a Gregorian month. -/
def daysInMonth (y : Int) (m : Nat) : Nat :=
  if m = 2 then (if isLeapYear y then 29 else 28)
  else if m = 4 ∨ m = 6 ∨ m = 9 ∨ m = 11 then 30
  else 31

/-- Numeric value of an ASCII digit character. -/
def dch (c : Char) : Nat := c.toNat - 48

/-- The engine's date parsing, restricted to the ISO calendar-date subset
(`YYYY-MM-DD`) that this server's schema uses; out-of-range components and
every other shape yield an invalid date (`none`).  (The engine also accepts
other formats; none are produced by this server's callers.) -/
def parseISOdate (s : String) : Option (Int × Nat × Nat) :=
  match s.data with
  | [y1, y2, y3, y4, '-', m1, m2, '-', d1, d2] =>
    if (y1.isDigit && y2.isDigit && y3.isDigit && y4.isDigit &&
        m1.isDigit && m2.isDigit && d1.isDigit && d2.isDigit) = true then
      let y : Int := (dch y1 * 1000 + dch y2 * 100 + dch y3 * 10 + dch y4 : Nat)
      let m := dch m1 * 10 + dch m2
      let d := dch d1 * 10 + dch d2
      if (1 ≤ m ∧ m ≤ 12) ∧ (1 ≤ d ∧ d ≤ daysInMonth y m) then some (y, m, d)
      else none
    else none
  | _ => none

/-- Days since the Unix epoch of a civil date (standard era-based
computation). -/
def daysFromCivil (y0 : Int) (m d : Nat) : Int :=
  let y := if m ≤ 2 then y0 - 1 else y0
  let era := Int.fdiv y 400
  let yoe := (y - era * 400).toNat
  let mp := if 2 < m then m - 3 else m + 9
  let doy := (153 * mp + 2) / 5 + d - 1
  let doe := yoe * 365 + yoe / 4 - yoe / 100 + doy
  era * 146097 + (doe : Int) - 719468

/-- Civil date of a days-since-epoch count (inverse of `daysFromCivil`). -/
def civilFromDays (z0 : Int) : Int × Nat × Nat :=
  let z := z0 + 719468
  let era := Int.fdiv z 146097
  let doe := (z - era * 146097).toNat
  let yoe := (doe - doe / 1460 + doe / 36524 - doe / 146096) / 365
  let y : Int := (yoe : Int) + era * 400
  let doy := doe - (365 * yoe + yoe / 4 - yoe / 100)
  let mp := (5 * doy + 2) / 153
  let d := doy - (153 * mp + 2) / 5 + 1
  let m := if mp < 10 then mp + 3 else mp - 9
  (if m ≤ 2 then y + 1 else y, m, d)

/-- Short weekday names used by `toLocaleDateString('en-US')`. -/
def weekdayName (i : Nat) : String :=
  (["Sun", "Mon", "Tue", "Wed", "Thu", "Fri", "Sat"].getD i "")

/-- Short month names used by `toLocaleDateString('en-US')`. -/
def monthShortName (m : Nat) : String :=
  (["Jan", "Feb", "Mar", "Apr", "May", "Jun", "Jul", "Aug", "Sep", "Oct",
    "Nov", "Dec"].getD (m - 1) "")

/-- The `new Date(value)` constructor: a string parses as a calendar date
(UTC midnight), any other value coerces through ToNumber to a millisecond
timestamp (truncated); NaN/infinite gives an invalid date.  The result is
the millisecond timestamp, `none` for Invalid Date. -/
def jsNewDate : JVal → Option Int
  | .str s => (parseISOdate s).map fun t => daysFromCivil t.1 t.2.1 t.2.2 * 86400000
  | v =>
    match toNumber v with
    | .val m e => some (Int.tdiv m ((10 : Int) ^ e))
    | _ => none

/-- `date.toLocaleDateString('en-US', {weekday:'short', month:'short',
day:'numeric'})`: `"Invalid Date"` for an invalid date, otherwise e.g.
`"Tue, Dec 16"` (rendered in UTC; the server's clock is modelled as UTC). -/
def jsDateToLocale : Option Int → String
  | none => "Invalid Date"
  | some ms =>
    let days := Int.fdiv ms 86400000
    let c := civilFromDays days
    let wd := (Int.emod (days + 4) 7).toNat
    weekdayName wd ++ ", " ++ monthShortName c.2.1 ++ " " ++ toString c.2.2

/-- Indexing `v[i]` for a nonnegative integer index. -/
def jsIndexNat (v : JVal) (i : Nat) : JVal :=
  match v with
  | .arr xs => (xs.get? i).getD .undef
  | .str s =>
    match s.data.get? i with
    | some c => .str (String.mk [c])
    | none => .undef
  | .obj fs => (jlookup fs (toString i)).getD .undef
  | _ => JVal.undef

/-- The `v[v.length - 1]` access: last element of an array or string;
`undefined` on receivers without a numeric length (where the index is NaN). -/
def lastIndexVal (v : JVal) : JVal :=
  match v with
  | .arr xs => (xs.get? (xs.length - 1)).getD .undef
  | .str s =>
    match s.data.get? (s.data.length - 1) with
    | some c => .str (String.mk [c])
    | none => .undef
  | _ => JVal.undef

/-- JS `a || b`. -/
def jsOr (a b : JVal) : JVal := if truthy a = true then a else b

/-- JS `v > 0` (through ToNumber; NaN compares false). -/
def jsGT0 (v : JVal) : Bool :=
  match toNumber v with
  | .val m _ => 0 < m
  | .inf => true
  | _ => false

/-- JS `+`: string concatenation when either side is a string, numeric
addition otherwise (non-numeric operands give NaN; object-valued operands
are not exercised by this server). -/
def jsAdd (a b : JVal) : JVal :=
  match a, b with
  | .str sa, _ => .str (sa ++ jsTemplate b)
  | _, .str sb => .str (jsTemplate a ++ sb)
  | _, _ =>
    match toNumber a, toNumber b with
    | .val m1 e1, .val m2 e2 =>
      .num (.val (m1 * (10 : Int) ^ e2 + m2 * (10 : Int) ^ e1) (e1 + e2))
    | _, _ => .num .nan

/-- JS `v !== 1` (strict: true for every non-number and every number other
than 1). -/
def strictNe1 : JVal → Bool
  | .num (.val m e) => m ≠ (10 : Int) ^ e
  | _ => true

/-- One passenger phrase, e.g. `"2 adults"` (suffix only when the count is
strictly unequal to the number 1). -/
def countNoun (v : JVal) (base sfx : String) : String :=
  jsTemplate v ++ " " ++ base ++ (if strictNe1 v = true then sfx else "")

/-- JS `s.replace('_', ' ')`: first occurrence only. -/
def replaceFirstUnderscore (s : String) : String :=
  match splitChar '_' s.data with
  | [] => s
  | [_] => s
  | x :: y :: rest =>
    String.mk x ++ " " ++ String.intercalate "_" ((y :: rest).map String.mk)

/-- `charAt(0).toUpperCase() + slice(1)`. -/
def capitalizeFirst (s : String) : String :=
  match s.data with
  | [] => ""
  | c :: rest => String.mk (asciiUpper c :: rest)

/-- The `flightData?.trip?.legs` optional chain of `generateTripSummary`. -/
def legsOfOptChain (flightData : JVal) : JVal :=
  match flightData with
  | .null => .undef
  | .undef => .undef
  | fd =>
    match getF fd "trip" with
    | .null => .undef
    | .undef => .undef
    | t => getF t "legs"

/-- The `try` block of `generateTripSummary` (lines 323-371): route,
formatted date, passenger phrase and capitalized class; the inner
early-return on empty segments yields `null`.  Errors raised here are the
ones caught by the surrounding `catch`. -/
def tripSummaryBody (flightData : JVal) : Except String JVal := do
  let trip := getF flightData "trip"
  let legs := getF trip "legs"
  let firstLeg := jsIndexNat legs 0
  let lastLeg := lastIndexVal legs
  let fsegs ← getProp firstLeg "segments"
  let lsegs ← getProp lastLeg "segments"
  if truthy fsegs = false ∨ truthy lsegs = false ∨
      isLen0 fsegs = true ∨ isLen0 lsegs = true then
    pure .null
  else do
    let firstSegment := jsIndexNat fsegs 0
    let lastSegment := lastIndexVal lsegs
    let depAir ← getProp firstSegment "departureAirport"
    let arrAir ← getProp lastSegment "arrivalAirport"
    let route :=
      if isLenEq legs 1 = true then
        jsTemplate depAir ++ " ‚Üí " ++ jsTemplate arrAir
      else
        jsTemplate depAir ++ " ‚áÑ " ++ jsTemplate arrAir
    let depDate ← getProp firstSegment "departureDate"
    let formattedDate := jsDateToLocale (jsNewDate depDate)
    let adults := jsOr (getF trip "adults") (.num (.val 0 0))
    let children := jsOr (getF trip "children") (.num (.val 0 0))
    let infants := jsAdd (jsOr (getF trip "infantsInSeat") (.num (.val 0 0)))
      (jsOr (getF trip "infantsOnLap") (.num (.val 0 0)))
    let p1 := if jsGT0 adults = true then countNoun adults "adult" "s" else ""
    let p2 :=
      if jsGT0 children = true then
        p1 ++ (if p1 ≠ "" then ", " else "") ++ countNoun children "child" "ren"
      else p1
    let p3 :=
      if jsGT0 infants = true then
        p2 ++ (if p2 ≠ "" then ", " else "") ++ countNoun infants "infant" "s"
      else p2
    let travelClass ← match getF trip "travelClass" with
      | .null => pure "economy"
      | .undef => pure "economy"
      | .str s =>
        let r := replaceFirstUnderscore (jsToLower s)
        pure (if r = "" then "economy" else r)
      | _ => Except.error "TypeError: toLowerCase is not a function"
    let capitalizedClass := capitalizeFirst travelClass
    pure (.obj [("route", .str route), ("date", .str formattedDate),
      ("passengers", .str (if p3 = "" then "1 passenger" else p3)),
      ("class", .str capitalizedClass)])

/-- `generateTripSummary` of `src/http-server.js` (lines 318-376): a
missing or empty legs chain short-circuits to `null`; the body runs under
`try`/`catch` with every caught error degrading to `null`.  The function is
typed in the dispatcher's error monad but, by that `catch`, never returns
an error. -/
def generateTripSummary (flightData : JVal) : Except String JVal :=
  let legs := legsOfOptChain flightData
  if truthy legs = false ∨ isLen0 legs = true then .ok .null
  else
    match tripSummaryBody flightData with
    | .ok v => .ok v
    | .error _ => .ok .null

/-- A JSON-RPC error as sent by the dispatcher: HTTP status, error code,
message and optional data. -/
structure McpError where
  httpStatus : Nat
  code : Int
  message : String
  data : Option String
deriving DecidableEq, Repr

/-- Outcome of one `tools/call` dispatch: a result payload or an error
envelope. -/
inductive McpOutcome where
  | ok (result : JVal)
  | err (e : McpError)

/-- The per-leg validation loop of the `search_flights` branch
(lines 504-508). -/
def checkLegs : List JVal → Except String Unit
  | [] => .ok ()
  | leg :: rest => do
    let segs ← getProp leg "segments"
    if truthy segs = false ∨ isLen0 segs = true then
      .error "Missing flight segments. Please ask the user for complete flight details including airline, flight number, airports, dates, and times."
    else checkLegs rest

/-- The validation prologue of the `search_flights` branch
(lines 493-508): zero legs, fewer than two legs, and legs without
segments all throw descriptive errors before any upstream call. -/
def searchFlightsValidation (args : JVal) : Except String Unit := do
  let trip ← getProp args "trip"
  let legs :=
    match trip with
    | .null => JVal.undef
    | .undef => JVal.undef
    | t => getF t "legs"
  if truthy legs = false ∨ isLen0 legs = true then
    .error "Missing flight information. Please ask the user for flight details (dates, times, flight numbers, airports) before searching."
  else if lenLt2 legs = true then
    .error "Navifare requires round-trip flights. Please ask the user for both outbound and return flight details including dates, times, flight numbers, and airports for both legs."
  else do
    let legsList ← iterOf legs
    checkLegs legsList

/-- The `search_flights` pipeline of the `tools/call` handler: validate,
sanitize, call `submit_and_poll_session` (abstracted as `upstream`), attach
the trip summary.  The second component counts upstream calls. -/
def searchFlightsBody (upstream : JVal → Except String JVal) (args : JVal) :
    Except String JVal × Nat :=
  match searchFlightsValidation args with
  | .error e => (.error e, 0)
  | .ok _ =>
    match sanitizeSubmitArgs args with
    | .error e => (.error e, 0)
    | .ok cleaned =>
      match upstream cleaned with
      | .error e => (.error e, 1)
      | .ok result =>
        match generateTripSummary cleaned with
        | .error e => (.error e, 1)
        | .ok ts => (.ok (setF (spreadCopy result) "tripSummary" ts), 1)

/-- The POST `/mcp` `tools/call` dispatch for the `search_flights` tool:
any error thrown inside the handler is caught at the route's `catch`
(lines 613-624) and sent as HTTP 500 with JSON-RPC code -32603, message
`Internal error`, and the thrown message in `data`.  The widget-HTML
envelope of the success path is presentation and is elided: the enhanced
result (upstream result plus `tripSummary`) stands for the response
payload. -/
def toolsCallSearchFlights (upstream : JVal → Except String JVal)
    (args : JVal) : McpOutcome × Nat :=
  match searchFlightsBody upstream args with
  | (.ok v, n) => (.ok v, n)
  | (.error msg, n) => (.err ⟨500, -32603, "Internal error", some msg⟩, n)

/-- Extract the payload of a successful `Except`, with a default. -/
def okOr (d : JVal) : Except String JVal → JVal
  | .ok v => v
  | .error _ => d

/-- A segment value is safely walkable by `sanitizeSubmitArgs` exactly when
it is an object (property assignment on anything else throws). -/
def wellShapedSeg : JVal → Bool
  | .obj _ => true
  | _ => false

/-- A `segments` value that the segment walk survives: falsy (skipped) or
an array of objects. -/
def wellShapedSegsVal (v : JVal) : Bool :=
  if truthy v = false then true
  else
    match v with
    | .arr xs => xs.all wellShapedSeg
    | _ => false

/-- A leg value the walk survives: an object with a well-shaped `segments`,
or any non-null primitive/array (whose `segments` reads as `undefined` and
is skipped); `null`/`undefined` legs throw on the `segments` read. -/
def wellShapedLeg : JVal → Bool
  | .obj fs => wellShapedSegsVal ((jlookup fs "segments").getD .undef)
  | .null => false
  | .undef => false
  | _ => true

/-- A `trip.legs` value the normalizer survives: falsy (defaulted to `[]`),
an array of well-shaped legs, or a string (iterated per character, each
skipped). -/
def wellShapedLegsVal (v : JVal) : Bool :=
  if truthy v = false then true
  else
    match v with
    | .arr xs => xs.all wellShapedLeg
    | .str _ => true
    | _ => false

/-- A `trip` value the normalizer survives: falsy (defaulted to `{}`) or an
object with a well-shaped `legs`. -/
def wellShapedTrip (v : JVal) : Bool :=
  if truthy v = false then true
  else
    match v with
    | .obj fs => wellShapedLegsVal ((jlookup fs "legs").getD .undef)
    | _ => false

/-- Arguments on which `sanitizeSubmitArgs` is throw-free: primitives and
`null` are returned unchanged, and objects need a well-shaped `trip`.
(Top-level arrays spread to index-keyed objects with no `trip` field and
are also safe, but are left outside this predicate to keep it small.) -/
def wellShapedArgs (v : JVal) : Bool :=
  match v with
  | .obj fs => wellShapedTrip ((jlookup fs "trip").getD .undef)
  | .arr _ => false
  | _ => true

/-- The segment of the spec's end-to-end scenario (XZ 2020 MXP-FCO on
2025-12-16, 07:10/08:25). -/
def specSegment : JVal :=
  .obj [("airline", .str "XZ"), ("flightNumber", .str "2020"),
    ("departureAirport", .str "MXP"), ("arrivalAirport", .str "FCO"),
    ("departureDate", .str "2025-12-16"), ("departureTime", .str "07:10"),
    ("arrivalTime", .str "08:25"), ("plusDays", .num (.val 0 0))]

/-- The trip of the spec's end-to-end scenario. -/
def specTrip : JVal :=
  .obj [("legs", .arr [.obj [("segments", .arr [specSegment])]]),
    ("travelClass", .str "economy"), ("adults", .num (.val 1 0)),
    ("children", .num (.val 0 0)), ("infantsInSeat", .num (.val 0 0)),
    ("infantsOnLap", .num (.val 0 0))]

/-- The full argument object of the spec's end-to-end scenario. -/
def specScenarioInput : JVal :=
  .obj [("trip", specTrip), ("source", .str "chatgpt"),
    ("price", .str "84"), ("currency", .str "eur"),
    ("location", .str "Milan, Italy")]

/-- A `legs` value the segment walk iterates without throwing: an array of
well-shaped legs, or a string (iterated per character). -/
def goodLegsVal (v : JVal) : Prop :=
  (∃ xs, v = .arr xs ∧ xs.all wellShapedLeg = true) ∨ (∃ s, v = .str s)

/-- Invariant maintained between the steps of `sanitizeSubmitArgs`: the
value is an object whose `trip` is an object whose `legs` the segment
walk survives. -/
def sanitizeInv (a : JVal) : Prop :=
  ∃ fs ts lv, a = .obj fs ∧ jlookup fs "trip" = some (.obj ts) ∧
    jlookup ts "legs" = some lv ∧ goodLegsVal lv

/-- The expected normalized form of the spec's end-to-end scenario. -/
def specScenarioNormalized : JVal :=
  .obj [("trip", .obj [("legs", .arr [.obj [("segments", .arr [.obj
      [("airline", .str "XZ"), ("flightNumber", .str "2020"),
       ("departureAirport", .str "MXP"), ("arrivalAirport", .str "FCO"),
       ("departureDate", .str "2025-12-16"),
       ("departureTime", .str "07:10:00"),
       ("arrivalTime", .str "08:25:00"), ("plusDays", .num (.val 0 0))]])]]),
    ("travelClass", .str "ECONOMY"), ("adults", .num (.val 1 0)),
    ("children", .num (.val 0 0)), ("infantsInSeat", .num (.val 0 0)),
    ("infantsOnLap", .num (.val 0 0))]),
   ("source", .str "MANUAL"), ("price", .str "84.00"),
   ("currency", .str "EUR"), ("location", .str "IT")]

/-- A trip whose single segment has an unparseable departure date (used to
probe `generateTripSummary` on malformed dates). -/
def badDateTrip : JVal :=
  .obj [("trip", .obj [("legs", .arr [.obj [("segments", .arr [.obj
    [("departureAirport", .str "MXP"), ("arrivalAirport", .str "FCO"),
     ("departureDate", .str "not-a-date")]])]])])]

end NavifareMCP

namespace NavifareMCP

theorem eok_bind {α β : Type} (a : α) (f : α → Except String β) :
    (Except.ok a >>= f : Except String β) = f a := rfl

theorem eerr_bind {α β : Type} (e : String) (f : α → Except String β) :
    (Except.error e >>= f : Except String β) = .error e := rfl

theorem epure_eq {α : Type} (a : α) : (pure a : Except String α) = .ok a := rfl

theorem pollLoop_continue (fetch : Nat → Except String SessionResults)
    (r a : Nat) (h : nonStopping fetch a) :
    pollLoop fetch (r + 1) a =
      ((pollLoop fetch r (a + 1)).1, (pollLoop fetch r (a + 1)).2 + 1) := by
  rcases h with ⟨e, he⟩ | ⟨s, hs, hns, hnr⟩
  · simp [pollLoop, he]
  · simp [pollLoop, hs, hns, hnr]

theorem pollLoop_skip (fetch : Nat → Except String SessionResults) :
    ∀ (k r a : Nat), (∀ i, a ≤ i → i < a + k → nonStopping fetch i) →
      k ≤ r →
      pollLoop fetch r a =
        ((pollLoop fetch (r - k) (a + k)).1,
          k + (pollLoop fetch (r - k) (a + k)).2) := by
  intro k
  induction k with
  | zero => intro r a _ _; simp
  | succ k ih =>
    intro r a h hk
    obtain ⟨r', rfl⟩ : ∃ r', r = r' + 1 := ⟨r - 1, by omega⟩
    rw [pollLoop_continue fetch r' a (h a le_rfl (by omega))]
    rw [ih r' (a + 1) (fun i h1 h2 => h i (by omega) (by omega)) (by omega)]
    simp only [show r' - k = r' + 1 - (k + 1) from by omega,
      show a + 1 + k = a + (k + 1) from by omega, Prod.mk.injEq]
    exact ⟨trivial, by omega⟩

theorem pollLoop_none_count (fetch : Nat → Except String SessionResults) :
    ∀ (r a : Nat), (pollLoop fetch r a).1 = none → (pollLoop fetch r a).2 = r := by
  intro r
  induction r with
  | zero => intro a _; rfl
  | succ r ih =>
    intro a h
    cases hf : fetch a with
    | error e =>
      rw [pollLoop_continue fetch r a (Or.inl ⟨e, hf⟩)] at h ⊢
      simpa using ih (a + 1) h
    | ok s =>
      by_cases h1 : s.status = some "COMPLETED"
      · rw [show pollLoop fetch (r + 1) a = (some s, 1) from by
          simp [pollLoop, hf, h1]] at h
        simp at h
      · by_cases h2 : hasResults s = true ∧ a = maxAttempts
        · obtain ⟨h2a, h2b⟩ := h2
          rw [show pollLoop fetch (r + 1) a = (some s, 1) from by
            rw [h2b] at hf ⊢
            simp [pollLoop, hf, h1, h2a]] at h
          simp at h
        · rw [pollLoop_continue fetch r a (Or.inr ⟨s, hf, h1, h2⟩)] at h ⊢
          simpa using ih (a + 1) h

theorem pollLoop_some_fetch (fetch : Nat → Except String SessionResults) :
    ∀ (r a k : Nat) (s : SessionResults), pollLoop fetch r a = (some s, k) →
      1 ≤ k ∧ k ≤ r ∧ fetch (a + k - 1) = .ok s := by
  intro r
  induction r with
  | zero => intro a k s h; simp [pollLoop] at h
  | succ r ih =>
    intro a k s h
    cases hf : fetch a with
    | error e =>
      rw [pollLoop_continue fetch r a (Or.inl ⟨e, hf⟩)] at h
      obtain ⟨h1, h2⟩ := Prod.mk.injEq .. ▸ h
      obtain ⟨hk1, hk2, hfk⟩ := ih (a + 1) (pollLoop fetch r (a + 1)).2 s
        (by rw [← h1])
      refine ⟨by omega, by omega, ?_⟩
      rw [show a + k - 1 = a + 1 + (pollLoop fetch r (a + 1)).2 - 1 from by omega]
      exact hfk
    | ok t =>
      by_cases h1 : t.status = some "COMPLETED"
      · rw [show pollLoop fetch (r + 1) a = (some t, 1) from by
          simp [pollLoop, hf, h1]] at h
        obtain ⟨ht, hk⟩ := Prod.mk.injEq .. ▸ h
        refine ⟨by omega, by omega, ?_⟩
        rw [show a + k - 1 = a from by omega, hf, Option.some.injEq] at *
        rw [← ht]
      · by_cases h2 : hasResults t = true ∧ a = maxAttempts
        · obtain ⟨h2a, h2b⟩ := h2
          rw [show pollLoop fetch (r + 1) a = (some t, 1) from by
            rw [h2b] at hf ⊢
            simp [pollLoop, hf, h1, h2a]] at h
          obtain ⟨ht, hk⟩ := Prod.mk.injEq .. ▸ h
          refine ⟨by omega, by omega, ?_⟩
          rw [show a + k - 1 = a from by omega, hf, Option.some.injEq] at *
          rw [← ht]
        · rw [pollLoop_continue fetch r a (Or.inr ⟨t, hf, h1, h2⟩)] at h
          obtain ⟨hh1, hh2⟩ := Prod.mk.injEq .. ▸ h
          obtain ⟨hk1, hk2, hfk⟩ := ih (a + 1) (pollLoop fetch r (a + 1)).2 s
            (by rw [← hh1])
          refine ⟨by omega, by omega, ?_⟩
          rw [show a + k - 1 = a + 1 + (pollLoop fetch r (a + 1)).2 - 1 from by omega]
          exact hfk

/-- C2: if the upstream reports `COMPLETED` for the first time on poll
attempt `n` (1 ≤ n ≤ 10), `submit_and_poll_session` performs exactly `n`
result fetches after submission and returns that attempt's snapshot,
never performing attempt `n + 1`. -/
theorem poll_first_completed_stops (resp : SubmitResponse)
    (fetch : Nat → Except String SessionResults) (n : Nat) (s : SessionResults)
    (hid : truthyId resp.request_id = true)
    (h1 : 1 ≤ n) (h2 : n ≤ maxAttempts)
    (hc : fetch n = .ok s) (hcs : s.status = some "COMPLETED")
    (hprev : ∀ i t, 1 ≤ i → i < n → fetch i = .ok t →
      t.status ≠ some "COMPLETED") :
    submit_and_poll_session (.ok resp) fetch = (.ok s, n) := by
  have hmax : maxAttempts = 10 := rfl
  have hns : ∀ i, 1 ≤ i → i < 1 + (n - 1) → nonStopping fetch i := by
    intro i hi1 hi2
    cases hfi : fetch i with
    | error e => exact Or.inl ⟨e, hfi⟩
    | ok t =>
      refine Or.inr ⟨t, hfi, hprev i t hi1 (by omega) hfi, ?_⟩
      rintro ⟨-, hieq⟩
      omega
  have hskip := pollLoop_skip fetch (n - 1) maxAttempts 1 hns (by omega)
  rw [show 1 + (n - 1) = n from by omega,
    show maxAttempts - (n - 1) = (maxAttempts - n) + 1 from by omega] at hskip
  rw [show pollLoop fetch ((maxAttempts - n) + 1) n = (some s, 1) from by
    simp [pollLoop, hc, hcs]] at hskip
  simp only [submit_and_poll_session, hid, Bool.true_eq_false, if_false, hskip]
  simp only [Prod.mk.injEq]
  exact ⟨trivial, by omega⟩

/-- C2 witness: with the mock upstream that completes on attempt 3,
the orchestrator makes exactly 3 fetches and returns that snapshot. -/
theorem poll_first_completed_stops_witness :
    submit_and_poll_session (.ok ⟨some "req-1"⟩) mockCompletedAt3 =
      (.ok ⟨some "COMPLETED", some []⟩, 3) := by
  refine poll_first_completed_stops ⟨some "req-1"⟩ mockCompletedAt3 3
    ⟨some "COMPLETED", some []⟩ rfl (by omega) (by decide) rfl rfl ?_
  intro i t hi1 hi2 hf
  rw [show mockCompletedAt3 i = .ok ⟨some "IN_PROGRESS", none⟩ from by
    simp [mockCompletedAt3]; omega, Except.ok.injEq] at hf
  rw [← hf]
  simp

/-- C3: if the upstream never reports `COMPLETED` but returns a non-empty
results list from attempt 2 onward, `submit_and_poll_session` performs all
10 poll attempts and returns the snapshot fetched on attempt 10. -/
theorem poll_partial_returns_last_snapshot (resp : SubmitResponse)
    (fetch : Nat → Except String SessionResults) (s10 : SessionResults)
    (hid : truthyId resp.request_id = true)
    (hok : ∀ i, 1 ≤ i → i ≤ maxAttempts →
      ∃ s, fetch i = .ok s ∧ s.status ≠ some "COMPLETED")
    (hres : ∀ i s, 2 ≤ i → i ≤ maxAttempts → fetch i = .ok s →
      hasResults s = true)
    (h10 : fetch maxAttempts = .ok s10) :
    submit_and_poll_session (.ok resp) fetch = (.ok s10, maxAttempts) := by
  have hmax : maxAttempts = 10 := rfl
  have hns : ∀ i, 1 ≤ i → i < 1 + 9 → nonStopping fetch i := by
    intro i hi1 hi2
    obtain ⟨s, hs, hns⟩ := hok i hi1 (by omega)
    exact Or.inr ⟨s, hs, hns, by rintro ⟨-, hieq⟩; omega⟩
  have hskip := pollLoop_skip fetch 9 maxAttempts 1 hns (by omega)
  have hstop : pollLoop fetch (maxAttempts - 9) (1 + 9) = (some s10, 1) := by
    obtain ⟨s, hs, hnc⟩ := hok maxAttempts (by omega) le_rfl
    have hsr : hasResults s = true := hres maxAttempts s (by omega) le_rfl hs
    have hss : s = s10 := by
      rw [h10, Except.ok.injEq] at hs
      exact hs.symm
    subst hss
    rw [show maxAttempts - 9 = 0 + 1 from rfl]
    simp [pollLoop, show (1 + 9 : Nat) = maxAttempts from rfl, hs, hnc, hsr]
  rw [hstop] at hskip
  simp only [submit_and_poll_session, hid, Bool.true_eq_false, if_false, hskip]
  rfl

/-- C3 witness: with the mock upstream that never completes but has one
result from attempt 2 on, the orchestrator runs all 10 attempts and returns
the attempt-10 snapshot. -/
theorem poll_partial_returns_last_snapshot_witness :
    submit_and_poll_session (.ok ⟨some "req-2"⟩) mockPartialFrom2 =
      (.ok ⟨some "IN_PROGRESS", some [samplePrice]⟩, maxAttempts) := by
  refine poll_partial_returns_last_snapshot ⟨some "req-2"⟩ mockPartialFrom2
    ⟨some "IN_PROGRESS", some [samplePrice]⟩ rfl ?_ ?_ rfl
  · intro i hi1 hi2
    by_cases h : 2 ≤ i
    · exact ⟨⟨some "IN_PROGRESS", some [samplePrice]⟩,
        by simp [mockPartialFrom2, h], by simp⟩
    · exact ⟨⟨some "IN_PROGRESS", some []⟩,
        by simp [mockPartialFrom2, h], by simp⟩
  · intro i s hi1 hi2 hf
    rw [show mockPartialFrom2 i = .ok ⟨some "IN_PROGRESS", some [samplePrice]⟩
      from by simp [mockPartialFrom2, hi1], Except.ok.injEq] at hf
    rw [← hf]
    rfl

/-- C4: if the upstream never completes and always reports zero results,
the loop exhausts its 10 attempts and exactly one additional unconditional
terminal fetch is issued, whose outcome is returned as-is (11 fetches after
submission in total). -/
theorem poll_empty_terminal_fetch (resp : SubmitResponse)
    (fetch : Nat → Except String SessionResults)
    (hid : truthyId resp.request_id = true)
    (hok : ∀ i, 1 ≤ i → i ≤ maxAttempts →
      ∃ s, fetch i = .ok s ∧ s.status ≠ some "COMPLETED" ∧
        hasResults s = false) :
    submit_and_poll_session (.ok resp) fetch =
      (fetch (maxAttempts + 1), maxAttempts + 1) := by
  have hmax : maxAttempts = 10 := rfl
  have hns : ∀ i, 1 ≤ i → i < 1 + 9 → nonStopping fetch i := by
    intro i hi1 hi2
    obtain ⟨s, hs, hnc, -⟩ := hok i hi1 (by omega)
    exact Or.inr ⟨s, hs, hnc, by rintro ⟨-, hieq⟩; omega⟩
  have hskip := pollLoop_skip fetch 9 maxAttempts 1 hns (by omega)
  have hstop : pollLoop fetch (maxAttempts - 9) (1 + 9) = (none, 1) := by
    obtain ⟨s, hs, hnc, hsr⟩ := hok maxAttempts (by omega) le_rfl
    rw [show maxAttempts - 9 = 0 + 1 from rfl]
    simp [pollLoop, show (1 + 9 : Nat) = maxAttempts from rfl, hs, hnc, hsr]
  rw [hstop] at hskip
  simp only [submit_and_poll_session, hid, Bool.true_eq_false, if_false, hskip]
  rfl

/-- C4 witness: with the always-empty mock upstream the orchestrator issues
11 fetches and returns the terminal fetch's snapshot. -/
theorem poll_empty_terminal_fetch_witness :
    submit_and_poll_session (.ok ⟨some "req-3"⟩) mockAlwaysEmpty =
      (.ok ⟨some "IN_PROGRESS", some []⟩, maxAttempts + 1) := by
  refine poll_empty_terminal_fetch ⟨some "req-3"⟩ mockAlwaysEmpty rfl ?_
  intro i hi1 hi2
  exact ⟨⟨some "IN_PROGRESS", some []⟩, rfl, by simp, rfl⟩

/-- C5: individual fetch failures during poll attempts 1-10 never abort the
loop and never surface to the caller; an error outcome can only come from a
failed submission, a falsy `request_id`, or the terminal fetch, and any run
that ends within the 10 loop attempts ends at a successful fetch whose value
is returned. -/
theorem poll_error_propagation (fetch : Nat → Except String SessionResults) :
    (∀ e, submit_and_poll_session (.error e) fetch = (.error e, 0)) ∧
    (∀ resp : SubmitResponse, truthyId resp.request_id = false →
      submit_and_poll_session (.ok resp) fetch =
        (.error "No request_id returned from submit_session", 0)) ∧
    (∀ resp : SubmitResponse, truthyId resp.request_id = true →
      (∀ e, (submit_and_poll_session (.ok resp) fetch).1 = .error e →
        (submit_and_poll_session (.ok resp) fetch).2 = maxAttempts + 1 ∧
          fetch (maxAttempts + 1) = .error e) ∧
      (∀ n, (submit_and_poll_session (.ok resp) fetch).2 = n →
        n ≤ maxAttempts →
        ∃ s, fetch n = .ok s ∧
          (submit_and_poll_session (.ok resp) fetch).1 = .ok s)) := by
  refine ⟨fun e => rfl, fun resp h => by
    simp [submit_and_poll_session, h], fun resp h => ?_⟩
  rcases hp : pollLoop fetch maxAttempts 1 with ⟨o, k⟩
  cases o with
  | some s =>
    obtain ⟨hk1, hk2, hfk⟩ := pollLoop_some_fetch fetch maxAttempts 1 k s hp
    have hrun : submit_and_poll_session (.ok resp) fetch = (.ok s, k) := by
      simp [submit_and_poll_session, h, hp]
    constructor
    · intro e he
      rw [hrun] at he
      simp at he
    · intro n hn hle
      rw [hrun] at hn ⊢
      refine ⟨s, ?_, rfl⟩
      rw [show n = k from by simpa using hn.symm,
        show k = 1 + k - 1 from by omega]
      exact hfk
  | none =>
    have hk : k = maxAttempts := by
      have := pollLoop_none_count fetch maxAttempts 1 (by rw [hp])
      rw [hp] at this
      exact this
    subst hk
    have hrun : submit_and_poll_session (.ok resp) fetch =
        (fetch (maxAttempts + 1), maxAttempts + 1) := by
      simp [submit_and_poll_session, h, hp]
    constructor
    · intro e he
      rw [hrun] at he ⊢
      exact ⟨rfl, he⟩
    · intro n hn hle
      rw [hrun] at hn
      simp at hn
      omega

/-- C5 witness: every loop fetch fails yet no error surfaces; the terminal
fetch's error is the only one propagated, after 11 fetches. -/
theorem poll_error_propagation_witness :
    (submit_and_poll_session (.ok ⟨some "req-4"⟩) mockAlwaysFailing).2 =
        maxAttempts + 1 ∧
      mockAlwaysFailing (maxAttempts + 1) = .error "network unreachable" := by
  exact ((poll_error_propagation mockAlwaysFailing).2.2 ⟨some "req-4"⟩
    rfl).1 "network unreachable" (by rfl)

/-- C9: normalizing the spec's end-to-end scenario input yields travelClass
`ECONOMY`, source `MANUAL`, price `84.00`, currency `EUR`, location `IT`,
and seconds-padded departure/arrival times. -/
theorem spec_scenario_normalization :
    sanitizeSubmitArgs specScenarioInput = .ok specScenarioNormalized ∧
    getF (getF specScenarioNormalized "trip") "travelClass" = .str "ECONOMY" ∧
    getF specScenarioNormalized "source" = .str "MANUAL" ∧
    getF specScenarioNormalized "price" = .str "84.00" ∧
    getF specScenarioNormalized "currency" = .str "EUR" ∧
    getF specScenarioNormalized "location" = .str "IT" ∧
    getF (jsIndexNat (getF (jsIndexNat (getF (getF specScenarioNormalized
      "trip") "legs") 0) "segments") 0) "departureTime" = .str "07:10:00" ∧
    getF (jsIndexNat (getF (jsIndexNat (getF (getF specScenarioNormalized
      "trip") "legs") 0) "segments") 0) "arrivalTime" = .str "08:25:00" :=
  ⟨rfl, rfl, rfl, rfl, rfl, rfl, rfl, rfl⟩

/-- C1 counterexample: on a `tools/call` with an empty legs array the
dispatcher makes no upstream call and answers with the protocol's error
envelope: HTTP 500, JSON-RPC code -32603, message `Internal error`, the
descriptive validation text only in the error `data` field.  This is a
protocol-level fault, refuting the claim that the failure is surfaced as a
conversational message rather than a protocol-level fault. -/
theorem zero_legs_protocol_fault :
    toolsCallSearchFlights (fun v => .ok v)
      (.obj [("trip", .obj [("legs", .arr [])])]) =
    (.err ⟨500, -32603, "Internal error",
      some "Missing flight information. Please ask the user for flight details (dates, times, flight numbers, airports) before searching."⟩,
      0) := rfl

/-- C1 amended: a `tools/call` on `search_flights` whose trip has no legs
array or an empty one fails before any upstream call (zero upstream
invocations) with the descriptive validation message, but that failure is
surfaced through the protocol error envelope (HTTP 500, code -32603,
message `Internal error`) with the message in the `data` field, not as a
conversational tool result. -/
theorem zero_legs_validation_before_upstream
    (upstream : JVal → Except String JVal) (fs ts : List (String × JVal))
    (htrip : jlookup fs "trip" = some (.obj ts))
    (hlegs : jlookup ts "legs" = none ∨ jlookup ts "legs" = some (.arr [])) :
    toolsCallSearchFlights upstream (.obj fs) =
    (.err ⟨500, -32603, "Internal error",
      some "Missing flight information. Please ask the user for flight details (dates, times, flight numbers, airports) before searching."⟩,
      0) := by
  have hget : getProp (.obj fs) "trip" = .ok (.obj ts) := by
    simp [getProp, htrip]
  rcases hlegs with h | h <;>
    simp [toolsCallSearchFlights, searchFlightsBody, searchFlightsValidation,
      hget, h, getF, truthy, isLen0, lengthOf, eok_bind]

/-- C1 witness: the amended theorem applied to the concrete empty-legs
call. -/
theorem zero_legs_validation_before_upstream_witness :
    toolsCallSearchFlights (fun _ => .error "unreachable")
      (.obj [("trip", .obj [("legs", .arr [])])]) =
    (.err ⟨500, -32603, "Internal error",
      some "Missing flight information. Please ask the user for flight details (dates, times, flight numbers, airports) before searching."⟩,
      0) :=
  zero_legs_validation_before_upstream (fun _ => .error "unreachable")
    [("trip", .obj [("legs", .arr [])])] [("legs", .arr [])] rfl
    (Or.inr rfl)

/-- C8 counterexample: a malformed departure date does not degrade the trip
summary to null; `generateTripSummary` returns a summary object whose date
field is the string `Invalid Date`. -/
theorem summary_invalid_date_not_null :
    generateTripSummary badDateTrip =
      .ok (.obj [("route", .str "MXP ‚Üí FCO"), ("date", .str "Invalid Date"),
        ("passengers", .str "1 passenger"), ("class", .str "Economy")]) ∧
    getF (okOr .null (generateTripSummary badDateTrip)) "date" =
      .str "Invalid Date" ∧
    generateTripSummary badDateTrip ≠ .ok .null :=
  ⟨rfl, rfl, by
    intro h
    rw [show generateTripSummary badDateTrip =
      .ok (.obj [("route", .str "MXP ‚Üí FCO"), ("date", .str "Invalid Date"),
        ("passengers", .str "1 passenger"), ("class", .str "Economy")])
      from rfl] at h
    simp at h⟩

/-- C8 amended: `generateTripSummary` never throws (it is total and every
outcome is `.ok`): a failing guard or any error of its `try` body degrades
to a null summary.  A malformed departure date, however, is not a failure
of the body: the date formats as the string `Invalid Date` and the summary
is non-null. -/
theorem summary_never_throws_failures_null :
    (∀ v, ∃ r, generateTripSummary v = .ok r) ∧
    (∀ v e, tripSummaryBody v = .error e → generateTripSummary v = .ok .null) ∧
    getF (okOr .null (generateTripSummary badDateTrip)) "date" =
      .str "Invalid Date" := by
  refine ⟨fun v => ?_, fun v e he => ?_, rfl⟩
  · by_cases hg : truthy (legsOfOptChain v) = false ∨ isLen0 (legsOfOptChain v) = true
    · exact ⟨.null, by simp [generateTripSummary, hg]⟩
    · rcases hb : tripSummaryBody v with e | r
      · exact ⟨.null, by simp [generateTripSummary, hg, hb]⟩
      · exact ⟨r, by simp [generateTripSummary, hg, hb]⟩
  · by_cases hg : truthy (legsOfOptChain v) = false ∨ isLen0 (legsOfOptChain v) = true
    · simp [generateTripSummary, hg]
    · simp [generateTripSummary, hg, he]

/-- C8 witness: a leg that is `null` makes the body throw a `TypeError`,
and the summary degrades to null. -/
theorem summary_never_throws_failures_null_witness :
    generateTripSummary (.obj [("trip", .obj [("legs", .arr [JVal.null])])]) =
      .ok .null :=
  summary_never_throws_failures_null.2.1
    (.obj [("trip", .obj [("legs", .arr [JVal.null])])])
    "TypeError: Cannot read properties of null (reading segments)" rfl

theorem emapM_loop_nil {α β : Type} (f : α → Except String β) (acc : List β) :
    List.mapM.loop f [] acc = pure acc.reverse := rfl

/-- C6 counterexample: the all-letter price `abc` is not left unmodified:
it strips to the empty string, which `Number()` parses as 0, so the
normalized price is `0.00`. -/
theorem price_nonnumeric_becomes_zero :
    getF (okOr .null (sanitizeSubmitArgs (.obj [("price", .str "abc")])))
      "price" = .str "0.00" ∧
    JVal.str "0.00" ≠ JVal.str "abc" :=
  ⟨rfl, by simp⟩

/-- C6 amended: a string price is stripped of non-numeric characters and,
when the residue parses as a number (including the empty residue, which
parses as 0), reformatted to exactly two decimals; only a residue that
fails to parse (e.g. two dots) leaves the price unmodified. -/
theorem price_normalization :
    (∀ p : String,
      getF (okOr .null (sanitizeSubmitArgs (.obj [("price", .str p)])))
        "price" =
        (match jsParseNumber (stripNonNumeric p) with
         | some me => JVal.str (toFixed2 me.1 me.2)
         | none => JVal.str p)) ∧
    getF (okOr .null (sanitizeSubmitArgs (.obj [("price", .str "84")])))
      "price" = .str "84.00" ∧
    getF (okOr .null (sanitizeSubmitArgs (.obj [("price", .str "1.2.3")])))
      "price" = .str "1.2.3" := by
  refine ⟨fun p => ?_, rfl, rfl⟩
  rcases hp : jsParseNumber (stripNonNumeric p) with _ | me <;>
    simp [sanitizeSubmitArgs, sanitizeTripDefaults, sanitizeTravelClass,
      sanitizePrice, priceFix, sanitizeCurrency, sanitizeLocation,
      sanitizeSource, sanitizeInfants, sanitizeSegments, spreadCopy, getF,
      setF, delF, getProp, setProp, jlookup, jset, jdel, truthy,
      isTypeofObject, iterOf, isFiniteNum, okOr, eok_bind, epure_eq, hp,
      emapM_loop_nil]

/-- C10: a string source whose uppercase form is in the allow-list is kept
verbatim, never uppercased and never replaced by `MANUAL`; a
non-uppercase match such as `kayak` therefore survives normalization
outside the uppercase allow-list. -/
theorem source_allowlisted_kept (s : String)
    (h : validSources.contains (jsToUpper s) = true) :
    getF (okOr .null (sanitizeSubmitArgs (.obj [("source", .str s)])))
      "source" = .str s := by
  have hs : ¬ (s = "") := by
    intro he
    rw [he] at h
    exact absurd h (by decide)
  have hmem : jsToUpper s ∈ validSources := by simpa using h
  simp [sanitizeSubmitArgs, sanitizeTripDefaults, sanitizeTravelClass,
    sanitizePrice, priceFix, sanitizeCurrency, sanitizeLocation,
    sanitizeSource, sanitizeInfants, sanitizeSegments, spreadCopy, getF,
    setF, delF, getProp, setProp, jlookup, jset, jdel, truthy,
    isTypeofObject, iterOf, isFiniteNum, okOr, eok_bind, epure_eq, hs, h,
    hmem, emapM_loop_nil]

/-- C10 witness: `kayak` matches the allow-list case-insensitively, is kept
verbatim, and is itself outside the uppercase allow-list. -/
theorem source_allowlisted_kept_witness :
    validSources.contains (jsToUpper "kayak") = true ∧
    getF (okOr .null (sanitizeSubmitArgs (.obj [("source", .str "kayak")])))
      "source" = .str "kayak" ∧
    validSources.contains "kayak" = false :=
  ⟨by decide, source_allowlisted_kept "kayak" (by decide), by decide⟩

theorem jlookup_jset_self (fs : List (String × JVal)) (k : String) (v : JVal) :
    jlookup (jset fs k v) k = some v := by
  induction fs with
  | nil => simp [jset, jlookup]
  | cons hd tl ih =>
    obtain ⟨k0, v0⟩ := hd
    by_cases hk : k0 = k
    · simp [jset, hk, jlookup]
    · simp [jset, hk, jlookup, ih]

theorem jlookup_jset_of_ne (fs : List (String × JVal)) (k k' : String)
    (v : JVal) (h : k' ≠ k) :
    jlookup (jset fs k v) k' = jlookup fs k' := by
  induction fs with
  | nil => simp [jset, jlookup, Ne.symm h]
  | cons hd tl ih =>
    obtain ⟨k0, v0⟩ := hd
    by_cases hk : k0 = k
    · subst hk
      simp [jset, jlookup, Ne.symm h]
    · by_cases hk' : k0 = k'
      · subst hk'
        simp [jset, hk, jlookup, Ne.symm h]
      · simp [jset, hk, jlookup, hk', ih]

theorem jlookup_jdel_of_ne (fs : List (String × JVal)) (k k' : String)
    (h : k' ≠ k) : jlookup (jdel fs k) k' = jlookup fs k' := by
  induction fs with
  | nil => simp [jdel, jlookup]
  | cons hd tl ih =>
    obtain ⟨k0, v0⟩ := hd
    by_cases hk : k0 = k
    · subst hk
      simp [jdel, jlookup, Ne.symm h, ih]
    · by_cases hk' : k0 = k'
      · subst hk'
        simp [jdel, hk, jlookup, Ne.symm h]
      · simp [jdel, hk, jlookup, hk', ih]

theorem sanitizeInv_setF (a : JVal) (k : String) (v : JVal)
    (hk : "trip" ≠ k) (h : sanitizeInv a) : sanitizeInv (setF a k v) := by
  obtain ⟨fs, ts, lv, rfl, h1, h2, h3⟩ := h
  exact ⟨jset fs k v, ts, lv, rfl,
    (jlookup_jset_of_ne fs k "trip" v hk).trans h1, h2, h3⟩

theorem sanitizeInv_delF (a : JVal) (k : String) (hk : "trip" ≠ k)
    (h : sanitizeInv a) : sanitizeInv (delF a k) := by
  obtain ⟨fs, ts, lv, rfl, h1, h2, h3⟩ := h
  exact ⟨jdel fs k, ts, lv, rfl,
    (jlookup_jdel_of_ne fs k "trip" hk).trans h1, h2, h3⟩

theorem sanitizePrice_inv (a : JVal) (h : sanitizeInv a) :
    sanitizeInv (sanitizePrice a) := by
  rcases hv : getF a "price" with _ | _ | b | n | s | xs | gs <;>
    simp only [sanitizePrice, hv, priceFix]
  case num =>
    rcases hp : jsParseNumber (stripNonNumeric (jnumToString n)) with _ | me <;>
      simp only [hp]
    · exact h
    · exact sanitizeInv_setF a "price" _ (by decide) h
  case str =>
    rcases hp : jsParseNumber (stripNonNumeric s) with _ | me <;>
      simp only [hp]
    · exact h
    · exact sanitizeInv_setF a "price" _ (by decide) h
  all_goals exact h

theorem sanitizeCurrency_inv (a : JVal) (h : sanitizeInv a) :
    sanitizeInv (sanitizeCurrency a) := by
  rcases hv : getF a "currency" with _ | _ | b | n | s | xs | gs <;>
    simp only [sanitizeCurrency, hv] <;>
    first
      | exact sanitizeInv_setF a "currency" _ (by decide) h
      | exact h

theorem sanitizeLocation_inv (a : JVal) (h : sanitizeInv a) :
    sanitizeInv (sanitizeLocation a) := by
  rcases hv : getF a "location" with _ | _ | b | n | s | xs | gs <;>
    simp only [sanitizeLocation, hv]
  case str =>
    split_ifs with ht
    · rcases hr : resolveLocation (jsTrim s) with _ | c <;> simp only [hr]
      · exact sanitizeInv_delF a "location" (by decide) h
      · exact sanitizeInv_setF a "location" _ (by decide) h
    · exact sanitizeInv_delF a "location" (by decide) h
  all_goals exact sanitizeInv_delF a "location" (by decide) h

theorem sanitizeSource_inv (a : JVal) (h : sanitizeInv a) :
    sanitizeInv (sanitizeSource a) := by
  rcases hv : getF a "source" with _ | _ | b | n | s | xs | gs <;>
    simp only [sanitizeSource, hv]
  case str =>
    split_ifs with h1 h2
    · exact h
    · exact sanitizeInv_setF a "source" _ (by decide) h
    · exact sanitizeInv_setF a "source" _ (by decide) h
  all_goals exact sanitizeInv_setF a "source" _ (by decide) h

theorem sanitizeTravelClass_inv (a : JVal) (h : sanitizeInv a) :
    ∃ b, sanitizeTravelClass a = .ok b ∧ sanitizeInv b := by
  obtain ⟨fs, ts, lv, rfl, h1, h2, h3⟩ := h
  have ht : getF (.obj fs) "trip" = .obj ts := by simp [getF, h1]
  rcases hv : getF (.obj ts) "travelClass" with _ | _ | b | n | s | xs | gs <;>
    simp only [sanitizeTravelClass, ht, hv, setProp, eok_bind, epure_eq]
  case str =>
    refine ⟨setF (.obj fs) "trip" (.obj (jset ts "travelClass"
      (.str (jsToUpper s)))), rfl, ?_⟩
    refine ⟨jset fs "trip" _, jset ts "travelClass" (.str (jsToUpper s)), lv,
      rfl, jlookup_jset_self fs "trip" _, ?_, h3⟩
    rw [jlookup_jset_of_ne ts "travelClass" "legs" _ (by decide)]
    exact h2
  all_goals exact ⟨.obj fs, rfl, fs, ts, lv, rfl, h1, h2, h3⟩

theorem sanitizeInfants_inv (a : JVal) (h : sanitizeInv a) :
    ∃ b, sanitizeInfants a = .ok b ∧ sanitizeInv b := by
  obtain ⟨fs, ts, lv, rfl, h1, h2, h3⟩ := h
  have ht : getF (.obj fs) "trip" = .obj ts := by simp [getF, h1]
  have mk : ∀ ts' : List (String × JVal), jlookup ts' "legs" = some lv →
      sanitizeInv (.obj (jset fs "trip" (.obj ts'))) := fun ts' hl =>
    ⟨jset fs "trip" (.obj ts'), ts', lv, rfl,
      jlookup_jset_self fs "trip" _, hl, h3⟩
  by_cases c1 : isFiniteNum (getF (.obj ts) "infantsInSeat") = false
  · set ts1 := jset ts "infantsInSeat" (.num (.val 0 0)) with hts1
    have hl1 : jlookup ts1 "legs" = some lv := by
      rw [hts1, jlookup_jset_of_ne ts "infantsInSeat" "legs" _ (by decide)]
      exact h2
    by_cases c2 : isFiniteNum (getF (.obj ts1) "infantsOnLap") = false
    · refine ⟨.obj (jset fs "trip" (.obj (jset ts1 "infantsOnLap"
        (.num (.val 0 0))))), ?_, mk _ ?_⟩
      · simp [sanitizeInfants, ht, c1, c2, setProp, eok_bind, epure_eq, setF,
          hts1]
      · rw [jlookup_jset_of_ne ts1 "infantsOnLap" "legs" _ (by decide)]
        exact hl1
    · refine ⟨.obj (jset fs "trip" (.obj ts1)), ?_, mk _ hl1⟩
      simp [sanitizeInfants, ht, c1, c2, setProp, eok_bind, epure_eq, setF,
        hts1]
  · by_cases c2 : isFiniteNum (getF (.obj ts) "infantsOnLap") = false
    · refine ⟨.obj (jset fs "trip" (.obj (jset ts "infantsOnLap"
        (.num (.val 0 0))))), ?_, mk _ ?_⟩
      · simp [sanitizeInfants, ht, c1, c2, setProp, eok_bind, epure_eq, setF]
      · rw [jlookup_jset_of_ne ts "infantsOnLap" "legs" _ (by decide)]
        exact h2
    · refine ⟨.obj (jset fs "trip" (.obj ts)), ?_, mk _ h2⟩
      simp [sanitizeInfants, ht, c1, c2, setProp, eok_bind, epure_eq, setF]

theorem normTime_obj_ok (fs : List (String × JVal)) (k : String) :
    ∃ gs, normTime (.obj fs) k = .ok (.obj gs) := by
  have hg : getProp (.obj fs) k = .ok ((jlookup fs k).getD .undef) := rfl
  rcases hv : (jlookup fs k).getD .undef with _ | _ | b | n | s | xs | gs <;>
    simp only [normTime, hg, hv, eok_bind, setProp, truthy, epure_eq] <;>
    split_ifs <;> exact ⟨_, rfl⟩

theorem segFlightNumber_obj_ok (fs : List (String × JVal)) :
    ∃ gs, segFlightNumber (.obj fs) = .ok (.obj gs) := by
  have hg : getProp (.obj fs) "flightNumber" =
    .ok ((jlookup fs "flightNumber").getD .undef) := rfl
  rcases hv : (jlookup fs "flightNumber").getD .undef
      with _ | _ | b | n | s | xs | gs <;>
    simp only [segFlightNumber, hg, hv, eok_bind, setProp, epure_eq]
  case str =>
    rcases hd : firstDigitRun s.data with _ | d <;> simp only [hd] <;>
      exact ⟨_, rfl⟩
  all_goals exact ⟨_, rfl⟩

theorem segPlusDays_obj_ok (fs : List (String × JVal)) :
    ∃ gs, segPlusDays (.obj fs) = .ok (.obj gs) := by
  have hg : getProp (.obj fs) "plusDays" =
    .ok ((jlookup fs "plusDays").getD .undef) := rfl
  simp only [segPlusDays, hg, eok_bind, setProp, epure_eq]
  split_ifs <;> exact ⟨_, rfl⟩

theorem updateSeg_obj_ok (fs : List (String × JVal)) :
    ∃ gs, updateSeg (.obj fs) = .ok (.obj gs) := by
  obtain ⟨g1, hg1⟩ := segFlightNumber_obj_ok fs
  obtain ⟨g2, hg2⟩ := segPlusDays_obj_ok g1
  obtain ⟨g3, hg3⟩ := normTime_obj_ok g2 "departureTime"
  obtain ⟨g4, hg4⟩ := normTime_obj_ok g3 "arrivalTime"
  exact ⟨g4, by simp [updateSeg, hg1, hg2, hg3, hg4, eok_bind]⟩

theorem mapM_eq_loop {α β : Type} (f : α → Except String β) (xs : List α) :
    List.mapM.loop f xs [] = xs.mapM f := rfl

theorem mapM_updateSeg_ok (zs : List JVal)
    (h : zs.all wellShapedSeg = true) : ∃ ws, zs.mapM updateSeg = .ok ws := by
  induction zs with
  | nil => exact ⟨[], rfl⟩
  | cons z tl ih =>
    rw [List.all_cons, Bool.and_eq_true] at h
    obtain ⟨hz, htl⟩ := h
    obtain ⟨ws, hws⟩ := ih htl
    rcases z with _ | _ | b | n | s | xs | gs <;> simp [wellShapedSeg] at hz
    obtain ⟨g, hg⟩ := updateSeg_obj_ok gs
    exact ⟨.obj g :: ws,
      by rw [List.mapM_cons, hg, eok_bind, hws, eok_bind, epure_eq]⟩

theorem updateLeg_ok (l : JVal) (h : wellShapedLeg l = true) :
    ∃ m, updateLeg l = .ok m := by
  rcases l with _ | _ | b | n | s | xs | gs
  · simp [wellShapedLeg] at h
  · simp [wellShapedLeg] at h
  · exact ⟨.bool b, by simp [updateLeg, getProp, truthy, eok_bind, epure_eq]⟩
  · exact ⟨.num n, by simp [updateLeg, getProp, truthy, eok_bind, epure_eq]⟩
  · exact ⟨.str s, by simp [updateLeg, getProp, truthy, eok_bind, epure_eq]⟩
  · exact ⟨.arr xs, by simp [updateLeg, getProp, truthy, eok_bind, epure_eq]⟩
  · simp only [wellShapedLeg] at h
    have hg : getProp (.obj gs) "segments" =
      .ok ((jlookup gs "segments").getD .undef) := rfl
    by_cases htr : truthy ((jlookup gs "segments").getD .undef) = false
    · refine ⟨.obj gs, ?_⟩
      simp only [updateLeg, hg, eok_bind]
      rw [htr]
      simp [epure_eq]
    · unfold wellShapedSegsVal at h
      rw [if_neg htr] at h
      rcases hv : (jlookup gs "segments").getD .undef
          with _ | _ | b | n | s | xs | gs2 <;> rw [hv] at h <;> simp at h
      obtain ⟨ws, hws⟩ := mapM_updateSeg_ok xs (List.all_eq_true.mpr h)
      refine ⟨setF (.obj gs) "segments" (.arr ws), ?_⟩
      simp only [updateLeg, hg, hv, eok_bind]
      simp only [truthy]
      simp only [iterOf, eok_bind]
      simp only [mapM_eq_loop, hws, eok_bind]
      simp [setProp, setF, epure_eq]

theorem mapM_updateLeg_ok (xs : List JVal)
    (h : xs.all wellShapedLeg = true) : ∃ ys, xs.mapM updateLeg = .ok ys := by
  induction xs with
  | nil => exact ⟨[], rfl⟩
  | cons x tl ih =>
    rw [List.all_cons, Bool.and_eq_true] at h
    obtain ⟨m, hm⟩ := updateLeg_ok x h.1
    obtain ⟨ys, hys⟩ := ih h.2
    exact ⟨m :: ys,
      by rw [List.mapM_cons, hm, eok_bind, hys, eok_bind, epure_eq]⟩

theorem mapM_updateLeg_chars_ok (cs : List Char) :
    ∃ ys, (cs.map fun c => JVal.str (String.mk [c])).mapM updateLeg =
      .ok ys := by
  induction cs with
  | nil => exact ⟨[], rfl⟩
  | cons c tl ih =>
    obtain ⟨ys, hys⟩ := ih
    have hc : updateLeg (.str (String.mk [c])) = .ok (.str (String.mk [c])) :=
      by simp [updateLeg, getProp, truthy, eok_bind, epure_eq]
    exact ⟨.str (String.mk [c]) :: ys,
      by rw [List.map_cons, List.mapM_cons, hc, eok_bind, hys, eok_bind,
        epure_eq]⟩

theorem sanitizeSegments_inv (a : JVal) (h : sanitizeInv a) :
    ∃ b, sanitizeSegments a = .ok b := by
  obtain ⟨fs, ts, lv, rfl, h1, h2, h3⟩ := h
  have ht : getF (.obj fs) "trip" = .obj ts := by simp [getF, h1]
  have hl : getF (.obj ts) "legs" = lv := by simp [getF, h2]
  rcases h3 with ⟨xs, rfl, hall⟩ | ⟨s, rfl⟩
  · obtain ⟨ys, hys⟩ := mapM_updateLeg_ok xs hall
    refine ⟨setF (.obj fs) "trip" (.obj (jset ts "legs" (.arr ys))), ?_⟩
    simp only [sanitizeSegments, ht, hl, iterOf, eok_bind]
    simp only [mapM_eq_loop, hys, eok_bind]
    simp [setProp, setF, eok_bind, epure_eq]
  · obtain ⟨ys, hys⟩ := mapM_updateLeg_chars_ok s.data
    refine ⟨.obj fs, ?_⟩
    simp only [sanitizeSegments, ht, hl, iterOf, eok_bind]
    simp only [mapM_eq_loop, hys, eok_bind]
    simp [epure_eq]

theorem sanitizeTripDefaults_wellShaped (fs : List (String × JVal))
    (h : wellShapedTrip ((jlookup fs "trip").getD .undef) = true) :
    ∃ a, sanitizeTripDefaults (.obj fs) = .ok a ∧ sanitizeInv a := by
  by_cases htr : truthy ((jlookup fs "trip").getD .undef) = false
  · refine ⟨.obj (jset (jset fs "trip" (.obj [])) "trip"
      (.obj [("legs", .arr [])])), ?_, ?_⟩
    · simp only [sanitizeTripDefaults, getF]
      simp only [htr]
      simp [jlookup_jset_self, jlookup, jset, truthy, setProp, setF, eok_bind,
        epure_eq]
    · exact ⟨_, [("legs", .arr [])], .arr [], rfl,
        jlookup_jset_self _ "trip" _, by simp [jlookup], Or.inl ⟨[], rfl, rfl⟩⟩
  · rw [Bool.not_eq_false] at htr
    unfold wellShapedTrip at h
    rw [htr] at h
    simp only [Bool.true_eq_false, if_false] at h
    cases hv : (jlookup fs "trip").getD .undef with
    | undef => rw [hv] at htr; simp [truthy] at htr
    | null => rw [hv] at htr; simp [truthy] at htr
    | bool b => rw [hv] at h; simp at h
    | num n => rw [hv] at h; simp at h
    | str s => rw [hv] at h; simp at h
    | arr xs => rw [hv] at h; simp at h
    | obj ts =>
      rw [hv] at h
      simp only [] at h
      have h1 : jlookup fs "trip" = some (.obj ts) := by
        cases hlk : jlookup fs "trip" with
        | none => rw [hlk] at hv; simp at hv
        | some x =>
          rw [hlk] at hv
          simp at hv
          rw [hv]
      by_cases hlt : truthy ((jlookup ts "legs").getD .undef) = false
      · refine ⟨.obj (jset fs "trip" (.obj (jset ts "legs" (.arr [])))),
          ?_, ?_⟩
        · simp only [sanitizeTripDefaults, getF]
          simp only [hv]
          simp only [show truthy (JVal.obj ts) = true from rfl]
          simp only [Bool.true_eq_false, if_false]
          simp only [getF, hv]
          simp only [hlt]
          simp [setProp, setF, eok_bind, epure_eq]
        · exact ⟨_, jset ts "legs" (.arr []), .arr [], rfl,
            jlookup_jset_self _ "trip" _, jlookup_jset_self _ "legs" _,
            Or.inl ⟨[], rfl, rfl⟩⟩
      · rw [Bool.not_eq_false] at hlt
        unfold wellShapedLegsVal at h
        rw [hlt] at h
        simp only [Bool.true_eq_false, if_false] at h
        cases hlv : (jlookup ts "legs").getD .undef with
        | undef => rw [hlv] at hlt; simp [truthy] at hlt
        | null => rw [hlv] at hlt; simp [truthy] at hlt
        | bool b2 => rw [hlv] at h; simp at h
        | num n2 => rw [hlv] at h; simp at h
        | obj gs2 => rw [hlv] at h; simp at h
        | arr xs =>
          rw [hlv] at h
          simp only [] at h
          have h2 : jlookup ts "legs" = some (.arr xs) := by
            cases hlk : jlookup ts "legs" with
            | none => rw [hlk] at hlv; simp at hlv
            | some x =>
              rw [hlk] at hlv
              simp at hlv
              rw [hlv]
          refine ⟨.obj fs, ?_, fs, ts, .arr xs, rfl, h1, h2,
            Or.inl ⟨xs, rfl, by simpa using h⟩⟩
          simp only [sanitizeTripDefaults, getF]
          simp only [hv]
          simp only [show truthy (JVal.obj ts) = true from rfl]
          simp only [Bool.true_eq_false, if_false]
          simp only [getF, hv]
          simp only [hlv]
          simp [truthy, epure_eq]
        | str s2 =>
          rw [hlv] at hlt
          have h2 : jlookup ts "legs" = some (.str s2) := by
            cases hlk : jlookup ts "legs" with
            | none => rw [hlk] at hlv; simp at hlv
            | some x =>
              rw [hlk] at hlv
              simp at hlv
              rw [hlv]
          refine ⟨.obj fs, ?_, fs, ts, .str s2, rfl, h1, h2,
            Or.inr ⟨s2, rfl⟩⟩
          simp only [sanitizeTripDefaults, getF]
          simp only [hv]
          simp only [show truthy (JVal.obj ts) = true from rfl]
          simp only [Bool.true_eq_false, if_false]
          simp only [getF, hv]
          simp only [hlv, hlt]
          simp [epure_eq]

/-- C7 amended: `sanitizeSubmitArgs` never throws on any argument whose
nested structure, where present, has the expected container types
(`wellShapedArgs`): primitives pass through, missing `trip` and `legs` are
defaulted, non-finite infant counts become 0.  The second conjunct shows
the defaults on the empty object.  (A truthy non-array `trip.legs` such as
the number 5 makes the source throw, see the counterexample.) -/
theorem sanitize_wellshaped_total :
    (∀ v, wellShapedArgs v = true → ∃ w, sanitizeSubmitArgs v = .ok w) ∧
    sanitizeSubmitArgs (.obj []) = .ok (.obj [("trip", .obj
      [("legs", .arr []), ("infantsInSeat", .num (.val 0 0)),
       ("infantsOnLap", .num (.val 0 0))]), ("source", .str "MANUAL")]) := by
  refine ⟨fun v hv => ?_, rfl⟩
  rcases v with _ | _ | b | n | s | xs | fs
  · exact ⟨.undef, by simp [sanitizeSubmitArgs, truthy, isTypeofObject]⟩
  · exact ⟨.null, by simp [sanitizeSubmitArgs, truthy, isTypeofObject]⟩
  · exact ⟨.bool b, by simp [sanitizeSubmitArgs, truthy, isTypeofObject]⟩
  · exact ⟨.num n, by simp [sanitizeSubmitArgs, truthy, isTypeofObject]⟩
  · exact ⟨.str s, by simp [sanitizeSubmitArgs, truthy, isTypeofObject]⟩
  · simp [wellShapedArgs] at hv
  · have h0 : wellShapedTrip ((jlookup fs "trip").getD .undef) = true := by
      simpa [wellShapedArgs] using hv
    obtain ⟨a1, ha1, hi1⟩ := sanitizeTripDefaults_wellShaped fs h0
    obtain ⟨a2, ha2, hi2⟩ := sanitizeTravelClass_inv a1 hi1
    have hi6 : sanitizeInv
        (sanitizeSource (sanitizeLocation (sanitizeCurrency
          (sanitizePrice a2)))) :=
      sanitizeSource_inv _ (sanitizeLocation_inv _ (sanitizeCurrency_inv _
        (sanitizePrice_inv _ hi2)))
    obtain ⟨a7, ha7, hi7⟩ := sanitizeInfants_inv _ hi6
    obtain ⟨a8, ha8⟩ := sanitizeSegments_inv a7 hi7
    refine ⟨a8, ?_⟩
    simp [sanitizeSubmitArgs, truthy, isTypeofObject, spreadCopy, ha1, ha2,
      ha7, ha8, eok_bind]

/-- C7 counterexample: `sanitizeSubmitArgs` does throw on a malformed
argument object: with `trip.legs` the (truthy) number 5, the
`for (const leg of args.trip.legs)` walk raises a `TypeError`, so the
normalizer is not throw-free on arbitrary malformed input. -/
theorem sanitize_throws_on_nonarray_legs :
    sanitizeSubmitArgs (.obj [("trip", .obj [("legs", .num (.val 5 0))])]) =
      .error "TypeError: value is not iterable" := rfl

/-- C7 witness: the throw-free theorem applied to the empty object. -/
theorem sanitize_wellshaped_total_witness :
    wellShapedArgs (.obj []) = true ∧
    ∃ w, sanitizeSubmitArgs (.obj []) = .ok w :=
  ⟨by decide, sanitize_wellshaped_total.1 (.obj []) (by decide)⟩

end NavifareMCP
